import Mathlib

/-!
Shallow embedding of the WiredTiger group-commit log slot engine
(src/log/log_slot.c) and proofs about its join / release / close /
switch / new / destroy operations.

The state-word helper macros (WT_LOG_SLOT_JOINED and friends) and the
LogCore collaborator live in headers that are not part of the sources;
they are modelled from the specification, as marked on each definition.
Everything else is translated directly from log_slot.c, sequentially:
each compare-and-swap is the unique writer, so a CAS succeeds exactly
when its guard holds, and an unbounded retry loop whose guard can never
become true is represented by an Option-valued result of none.
-/

namespace LogSlot

/-- Modelled from the spec: the JOINED field occupies the low 24 bits of
the packed 64-bit slot state word (spec section 3.2). -/
def WT_LOG_SLOT_JOINED (s : Nat) : Nat := s % 16777216

/-- Modelled from the spec: the RELEASED field occupies the middle 24 bits
of the packed state word (spec section 3.2). -/
def WT_LOG_SLOT_RELEASED (s : Nat) : Nat := s / 16777216 % 16777216

/-- Modelled from the spec: the flag bits occupy the top 16 bits of the
packed state word (spec section 3.2). -/
def WT_LOG_SLOT_FLAGS (s : Nat) : Nat := s / 281474976710656 % 65536

/-- Modelled from the spec: compose a state word from the JOINED,
RELEASED, and flag field values (spec section 3.2, JOIN_REL). -/
def WT_LOG_SLOT_JOIN_REL (j r f : Nat) : Nat :=
  f * 281474976710656 + r * 16777216 + j

/-- Modelled from the spec: the CLOSE flag bit, in word position
(bit 48, the lowest flag bit). -/
def WT_LOG_SLOT_CLOSE : Nat := 281474976710656

/-- Modelled from the spec: the RESERVED flag bit, in word position
(bit 49). -/
def WT_LOG_SLOT_RESERVED : Nat := 562949953421312

/-- Modelled from the spec: the FREE sentinel state word, chosen as the
all-ones 64-bit word (it has flag bits set, so a FREE slot is not OPEN). -/
def WT_LOG_SLOT_FREE : Nat := 18446744073709551615

/-- Modelled from the spec: upper bound on a single join size; must be
representable in the 24-bit JOINED field. -/
def WT_LOG_SLOT_MAXIMUM : Nat := 16777216

/-- The 64-bit word bound: state words are stored modulo this. -/
def WORD64 : Nat := 18446744073709551616

/-- FLD64_ISSET from the source tree: test whether any bit of the mask is
set in the field. -/
def FLD64_ISSET (field mask : Nat) : Bool := field &&& mask != 0

/-- Modelled from the spec: CLOSED(s) holds exactly when the CLOSE flag
bit is set (spec section 3.2). -/
def WT_LOG_SLOT_CLOSED (s : Nat) : Bool := FLD64_ISSET s WT_LOG_SLOT_CLOSE

/-- Modelled from the spec: OPEN(s) holds exactly when no flag bits are
set (spec section 3.2). -/
def WT_LOG_SLOT_OPEN (s : Nat) : Bool := WT_LOG_SLOT_FLAGS s == 0

/-- Modelled from the spec: DONE(s) holds exactly when the CLOSE flag is
set and JOINED equals RELEASED (spec section 3.2). -/
def WT_LOG_SLOT_DONE (s : Nat) : Bool :=
  WT_LOG_SLOT_CLOSED s && (WT_LOG_SLOT_JOINED s == WT_LOG_SLOT_RELEASED s)

/-- Modelled from the spec: per-commit flag requesting a data sync. -/
def WT_LOG_DSYNC : Nat := 1

/-- Modelled from the spec: per-commit flag requesting a full fsync. -/
def WT_LOG_FSYNC : Nat := 2

/-- Modelled from the spec: per-slot flag recording that a sync was
requested by some joiner. -/
def WT_SLOT_SYNC : Nat := 1

/-- Modelled from the spec: per-slot flag recording that a directory /
data sync was requested by some joiner. -/
def WT_SLOT_SYNC_DIR : Nat := 2

/-- An LSN: a (file, offset) pair, ordered lexicographically. -/
structure WT_LSN where
  file : Nat
  offset : Nat
deriving Repr, DecidableEq, Inhabited

/-- A log slot (WT_LOGSLOT): staging buffer metadata plus the packed
atomic state word. The buffer bytes themselves are not modelled; the
buffer is represented by its identity only. -/
structure WT_LOGSLOT where
  slot_state : Nat
  slot_unbuffered : Nat
  slot_error : Int
  slot_start_offset : Nat
  slot_last_offset : Nat
  slot_fh : Nat
  slot_start_lsn : WT_LSN
  slot_end_lsn : WT_LSN
  slot_release_lsn : WT_LSN
  flags : Nat
deriving Repr, DecidableEq, Inhabited

/-- The log (WT_LOG fields used by the slot engine): global LSNs, the
active-slot index, the slot pool, and configuration. The active slot is
an index into the pool, standing for the C pointer. -/
structure WT_LOG where
  alloc_lsn : WT_LSN
  write_lsn : WT_LSN
  active_slot : Option Nat
  slot_pool : List WT_LOGSLOT
  slot_buf_size : Nat
  force_consolidate : Bool
  log_fh : Nat
deriving Repr, DecidableEq, Inhabited

/-- The caller handle (WT_MYSLOT) filled in by a successful join. -/
structure WT_MYSLOT where
  slot : Nat
  offset : Nat
  end_offset : Nat
deriving Repr, DecidableEq, Inhabited

/-- __wt_log_slot_activate: initialize a slot to become active. -/
def log_slot_activate (log : WT_LOG) (slot : WT_LOGSLOT) : WT_LOGSLOT :=
  { slot with
    slot_state := 0
    slot_start_lsn := log.alloc_lsn
    slot_end_lsn := log.alloc_lsn
    slot_start_offset := log.alloc_lsn.offset
    slot_last_offset := log.alloc_lsn.offset
    slot_fh := log.log_fh
    slot_error := 0
    slot_unbuffered := 0 }

/-- __wt_log_slot_close, sequentially: the retry loop runs once because
this thread is the only writer, so the close CAS succeeds whenever the
guards let it run. Returns the updated log, the releasep output, and the
return code. -/
def log_slot_close (log : WT_LOG) (slot : Option Nat) : WT_LOG × Bool × Int :=
  match slot with
  | none => (log, false, 0)
  | some i =>
    let s := log.slot_pool.getD i default
    let old_state := s.slot_state
    if WT_LOG_SLOT_CLOSED old_state then (log, false, 0)
    else if FLD64_ISSET s.slot_state WT_LOG_SLOT_RESERVED then (log, false, 0)
    else
      let new_state := old_state ||| WT_LOG_SLOT_CLOSE
      let releasep := WT_LOG_SLOT_DONE new_state
      let end_offset := WT_LOG_SLOT_JOINED old_state
      let end_lsn : WT_LSN :=
        { s.slot_start_lsn with offset := s.slot_start_lsn.offset + end_offset }
      let s1 := { s with slot_state := new_state, slot_end_lsn := end_lsn }
      ({ log with slot_pool := log.slot_pool.set i s1, alloc_lsn := end_lsn },
       releasep, 0)

/-- The two F_SET statements run after a successful join CAS: a DSYNC or
FSYNC commit flag sets the slot's SYNC_DIR flag, and FSYNC also sets
SYNC. -/
def applySyncFlags (flags : Nat) (slot : WT_LOGSLOT) : WT_LOGSLOT :=
  let slot2 :=
    if FLD64_ISSET flags (WT_LOG_DSYNC ||| WT_LOG_FSYNC) then
      { slot with flags := slot.flags ||| WT_SLOT_SYNC_DIR }
    else slot
  if FLD64_ISSET flags WT_LOG_FSYNC then
    { slot2 with flags := slot2.flags ||| WT_SLOT_SYNC }
  else slot2

/-- __wt_log_slot_join, sequentially: if the observed state is OPEN the
CAS succeeds and the loop exits on its first iteration; otherwise the
state can never change under this thread and the loop spins forever,
modelled as none. myslotp is the caller's in-out handle. -/
def log_slot_join (log : WT_LOG) (mysize : Nat) (flags : Nat)
    (myslotp : WT_MYSLOT) : Option (WT_LOG × WT_MYSLOT × Int) :=
  match log.active_slot with
  | none => some (log, myslotp, 0)
  | some i =>
    let slot := log.slot_pool.getD i default
    let old_state := slot.slot_state
    let flag_state := WT_LOG_SLOT_FLAGS old_state
    let released := WT_LOG_SLOT_RELEASED old_state
    let join_offset := WT_LOG_SLOT_JOINED old_state
    let new_join := join_offset + mysize
    let new_state := WT_LOG_SLOT_JOIN_REL new_join released flag_state % WORD64
    if WT_LOG_SLOT_OPEN old_state then
      some ({ log with slot_pool := (log.slot_pool.set i
                (applySyncFlags flags { slot with slot_state := new_state })) },
            { slot := i, offset := join_offset,
              end_offset := join_offset + mysize }, 0)
    else none

/-- __wt_log_slot_release, sequentially: the last_offset raise loop
either finds the current value already at or above my_start and stops,
or its CAS succeeds. Then the slot size is atomically added into the
state. Returns the updated log and the post-add state word. -/
def log_slot_release (log : WT_LOG) (myslot : WT_MYSLOT) (size : Nat) :
    WT_LOG × Nat :=
  let slot := log.slot_pool.getD myslot.slot default
  let my_start := slot.slot_start_offset + myslot.offset
  let slot1 :=
    if slot.slot_last_offset < my_start then
      { slot with slot_last_offset := my_start }
    else slot
  let my_size := WT_LOG_SLOT_JOIN_REL 0 size 0
  let new_state := (slot1.slot_state + my_size) % WORD64
  ({ log with
     slot_pool := log.slot_pool.set myslot.slot
       { slot1 with slot_state := new_state } },
   new_state)

/-- The inner scan of __wt_log_slot_new: find the first pool slot whose
state word equals the FREE sentinel. -/
def findFreeIdx : List WT_LOGSLOT → Option Nat
  | [] => none
  | s :: rest =>
    if s.slot_state == WT_LOG_SLOT_FREE then some 0
    else (findFreeIdx rest).map (· + 1)

/-- __wt_log_slot_new, sequentially, with the LogCore.acquire
collaborator passed in as a function from the log and the chosen slot
index to a return code and updated log. Modelled from the spec: acquire
reserves file space and updates alloc_lsn and the slot's boundary LSNs
(spec section 6); it is otherwise opaque here. If no pool slot is FREE
the source signals the writer and retries forever, modelled as none. -/
def log_slot_new (acquire : WT_LOG → Nat → Int × WT_LOG) (log : WT_LOG) :
    Option (Int × WT_LOG) :=
  if log.force_consolidate = false then some (0, log)
  else if (match log.active_slot with
           | some a => WT_LOG_SLOT_OPEN (log.slot_pool.getD a default).slot_state
           | none => false) then some (0, log)
  else
    match findFreeIdx log.slot_pool with
    | some i =>
      let r := acquire log i
      if r.1 != 0 then some (r.1, r.2)
      else some (0, { r.2 with active_slot := some i })
    | none => none

/-- __wt_log_slot_switch, sequentially. The first returned component
records whether every WT_ASSERT executed by the body held: that the
inner close reported releasep zero, and (the diagnostic check) that
JOINED still exceeds RELEASED afterwards. The second component is the
result of the remaining work, none if slot_new spins. -/
def log_slot_switch (acquire : WT_LOG → Nat → Int × WT_LOG) (log : WT_LOG)
    (slot : Nat) : Bool × Option (WT_LOG × Int) :=
  if log.active_slot != some slot then (true, some (log, 0))
  else
    let c := log_slot_close log (some slot)
    let st := (c.1.slot_pool.getD slot default).slot_state
    let ok := !c.2.1 &&
      decide (WT_LOG_SLOT_RELEASED st < WT_LOG_SLOT_JOINED st)
    match log_slot_new acquire c.1 with
    | none => (ok, none)
    | some (ret, log2) => (ok, some (log2, ret))

/-- __wt_log_slot_destroy's drain loop over the pool, with __wt_write
passed in as a function from (file handle, start offset, write size) to
a return code. Returns the return code, the list of writes performed
(in order), and the number of slot buffers freed. WT_RET on a failed
write returns immediately, before the current slot's buffer is freed. -/
def destroyGo (w : Nat → Nat → Nat → Int) : List WT_LOGSLOT →
    Int × List (Nat × Nat × Nat) × Nat
  | [] => (0, [], 0)
  | s :: rest =>
    if FLD64_ISSET s.slot_state WT_LOG_SLOT_RESERVED = false then
      let rel := WT_LOG_SLOT_RELEASED s.slot_state
      let write_size := rel - s.slot_unbuffered
      if write_size != 0 then
        let r := w s.slot_fh s.slot_start_offset write_size
        if r != 0 then (r, [], 0)
        else
          let rec1 := destroyGo w rest
          (rec1.1, (s.slot_fh, s.slot_start_offset, write_size) :: rec1.2.1,
           rec1.2.2 + 1)
      else
        let rec1 := destroyGo w rest
        (rec1.1, rec1.2.1, rec1.2.2 + 1)
    else
      let rec1 := destroyGo w rest
      (rec1.1, rec1.2.1, rec1.2.2 + 1)

/-- __wt_log_slot_destroy: drain and free every pool slot's buffer. -/
def log_slot_destroy (w : Nat → Nat → Nat → Int) (log : WT_LOG) :
    Int × List (Nat × Nat × Nat) × Nat :=
  destroyGo w log.slot_pool

/-- __wt_log_slot_free: return a finished slot to the pool. -/
def log_slot_free (slot : WT_LOGSLOT) : WT_LOGSLOT :=
  { slot with flags := 0, slot_error := 0, slot_state := WT_LOG_SLOT_FREE }

/-- The state word a close argument refers to: the state of the indexed
pool slot, or 0 for a null slot. -/
def stateOf (log : WT_LOG) (slot : Option Nat) : Nat :=
  match slot with
  | none => 0
  | some i => (log.slot_pool.getD i default).slot_state

/-- Concrete fixture: an LSN. -/
def exLSN : WT_LSN := { file := 1, offset := 100 }

/-- Concrete fixture: a slot with five bytes joined and two released. -/
def exSlot : WT_LOGSLOT :=
  { slot_state := WT_LOG_SLOT_JOIN_REL 5 2 0
    slot_unbuffered := 0
    slot_error := 0
    slot_start_offset := 100
    slot_last_offset := 100
    slot_fh := 7
    slot_start_lsn := exLSN
    slot_end_lsn := exLSN
    slot_release_lsn := exLSN
    flags := 0 }

/-- Concrete fixture: a log whose single pool slot is the active slot. -/
def exLog : WT_LOG :=
  { alloc_lsn := exLSN
    write_lsn := { file := 1, offset := 50 }
    active_slot := some 0
    slot_pool := [exSlot]
    slot_buf_size := 32768
    force_consolidate := true
    log_fh := 7 }

/-- The result of a join, with the diverging case mapped to a dummy
triple whose return code -1 never arises from the source. -/
def joinD (log : WT_LOG) (mysize flags : Nat) (m : WT_MYSLOT) :
    WT_LOG × WT_MYSLOT × Int :=
  (log_slot_join log mysize flags m).getD (log, m, -1)

/-- A sequence of slot_join calls (each with no sync flags, as issued
between one activation and the next close), collecting the handles the
callers receive in CAS-success order. -/
def joinList (log : WT_LOG) : List Nat → Option (WT_LOG × List WT_MYSLOT)
  | [] => some (log, [])
  | sz :: rest =>
    match log_slot_join log sz 0 default with
    | none => none
    | some (log1, m, _) =>
      match joinList log1 rest with
      | none => none
      | some (log2, ms) => some (log2, m :: ms)

/-- Concrete fixture: the log with its single slot freshly activated
(state word zero). -/
def exLogA : WT_LOG :=
  { exLog with slot_pool := [{ exSlot with slot_state := 0 }] }

/-- Concrete fixture: a write collaborator that always fails. -/
def wFail : Nat → Nat → Nat → Int := fun _ _ _ => -1

/-- Concrete fixture: a slot with five released bytes to drain. -/
def exSlotRel : WT_LOGSLOT :=
  { exSlot with slot_state := WT_LOG_SLOT_JOIN_REL 0 5 0 }

/-- Concrete fixture: a log whose pool holds two slots awaiting drain. -/
def exLog7 : WT_LOG :=
  { exLog with slot_pool := [exSlotRel, exSlotRel] }

/-- Concrete fixture: a log in non-consolidated shape — no active slot,
one FREE pool slot — ready for slot_new promotion. -/
def exLog8 : WT_LOG :=
  { exLog with
    active_slot := none
    slot_pool := [{ exSlot with slot_state := WT_LOG_SLOT_FREE }] }

/- Helper lemmas. -/

lemma getD_set_self {α : Type} [Inhabited α] (l : List α) (i : Nat) (a : α)
    (h : i < l.length) : (l.set i a).getD i default = a := by
  induction l generalizing i with
  | nil => simp at h
  | cons x xs ih =>
    cases i with
    | zero => rfl
    | succ n => simpa using ih n (by simpa using h)

lemma lor_close_mod_low (s : Nat) :
    (s ||| WT_LOG_SLOT_CLOSE) % 16777216 = s % 16777216 := by
  have h24 : (16777216 : Nat) = 2 ^ 24 := by norm_num
  have h48 : WT_LOG_SLOT_CLOSE = 2 ^ 48 := by norm_num [WT_LOG_SLOT_CLOSE]
  rw [h24, h48]
  apply Nat.eq_of_testBit_eq
  intro i
  rw [Nat.testBit_mod_two_pow, Nat.testBit_mod_two_pow, Nat.testBit_or]
  by_cases hi : i < 24
  · rw [Nat.testBit_two_pow_of_ne (by omega)]
    simp
  · simp [hi]

lemma lor_close_mod_mid (s : Nat) :
    (s ||| WT_LOG_SLOT_CLOSE) % 281474976710656 = s % 281474976710656 := by
  have h48a : (281474976710656 : Nat) = 2 ^ 48 := by norm_num
  have h48 : WT_LOG_SLOT_CLOSE = 2 ^ 48 := by norm_num [WT_LOG_SLOT_CLOSE]
  rw [h48a, h48]
  apply Nat.eq_of_testBit_eq
  intro i
  rw [Nat.testBit_mod_two_pow, Nat.testBit_mod_two_pow, Nat.testBit_or]
  by_cases hi : i < 48
  · rw [Nat.testBit_two_pow_of_ne (by omega)]
    simp
  · simp [hi]

lemma released_as_mod_div (s : Nat) :
    WT_LOG_SLOT_RELEASED s = s % 281474976710656 / 16777216 := by
  have h : (281474976710656 : Nat) = 16777216 * 16777216 := by norm_num
  rw [WT_LOG_SLOT_RELEASED, h, Nat.mod_mul_right_div_self]

lemma joined_lor_close (s : Nat) :
    WT_LOG_SLOT_JOINED (s ||| WT_LOG_SLOT_CLOSE) = WT_LOG_SLOT_JOINED s := by
  rw [WT_LOG_SLOT_JOINED, WT_LOG_SLOT_JOINED, lor_close_mod_low]

lemma released_lor_close (s : Nat) :
    WT_LOG_SLOT_RELEASED (s ||| WT_LOG_SLOT_CLOSE) = WT_LOG_SLOT_RELEASED s := by
  rw [released_as_mod_div, released_as_mod_div, lor_close_mod_mid]

lemma closed_lor_close (s : Nat) :
    WT_LOG_SLOT_CLOSED (s ||| WT_LOG_SLOT_CLOSE) = true := by
  rw [WT_LOG_SLOT_CLOSED, FLD64_ISSET]
  simp only [bne_iff_ne, ne_eq, decide_eq_true_eq]
  intro h
  have h2 := congrArg (fun x => x.testBit 48) h
  have ht : Nat.testBit WT_LOG_SLOT_CLOSE 48 = true := by decide
  simp [Nat.testBit_and, Nat.testBit_or, ht] at h2

/-- Claim C5: slot_close on a null slot, an already-CLOSE slot, or a
RESERVED slot returns success, reports release_now false, and leaves the
whole log (in particular the slot state word and alloc_lsn) unchanged. -/
theorem c5_close_idempotent (log : WT_LOG) (slot : Option Nat)
    (h : slot = none ∨ WT_LOG_SLOT_CLOSED (stateOf log slot) = true ∨
         FLD64_ISSET (stateOf log slot) WT_LOG_SLOT_RESERVED = true) :
    log_slot_close log slot = (log, false, 0) := by
  cases slot with
  | none => rfl
  | some i =>
    rcases h with h | h | h
    · exact absurd h (by simp)
    · simp only [stateOf] at h
      simp only [log_slot_close]
      rw [if_pos h]
    · simp only [stateOf] at h
      by_cases hc : WT_LOG_SLOT_CLOSED (log.slot_pool.getD i default).slot_state = true
      · simp only [log_slot_close]
        rw [if_pos hc]
      · simp only [log_slot_close]
        rw [if_neg hc, if_pos h]

/-- Witness for C5: closing an already-closed concrete slot is a no-op. -/
theorem c5_witness :
    log_slot_close
      { exLog with slot_pool :=
          [{ exSlot with slot_state := exSlot.slot_state ||| WT_LOG_SLOT_CLOSE }] }
      (some 0) =
    ({ exLog with slot_pool :=
        [{ exSlot with slot_state := exSlot.slot_state ||| WT_LOG_SLOT_CLOSE }] },
     false, 0) :=
  c5_close_idempotent _ _ (Or.inr (Or.inl (by decide)))

/-- Claim C2: a slot_close that wins the close CAS (the loaded state is
neither CLOSE nor RESERVED) stores old OR CLOSE, sets the slot's end_lsn
to its start_lsn with the offset advanced by JOINED(old), publishes
alloc_lsn equal to that end_lsn, returns success, and reports
release_now true exactly when the post-CAS state is DONE (CLOSE set and
JOINED equal to RELEASED). -/
theorem c2_close_wins (log : WT_LOG) (i : Nat)
    (hi : i < log.slot_pool.length)
    (hc : WT_LOG_SLOT_CLOSED (log.slot_pool.getD i default).slot_state = false)
    (hr : FLD64_ISSET (log.slot_pool.getD i default).slot_state
            WT_LOG_SLOT_RESERVED = false) :
    ((log_slot_close log (some i)).1.slot_pool.getD i default).slot_state =
      ((log.slot_pool.getD i default).slot_state ||| WT_LOG_SLOT_CLOSE) ∧
    ((log_slot_close log (some i)).1.slot_pool.getD i default).slot_end_lsn =
      { file := (log.slot_pool.getD i default).slot_start_lsn.file,
        offset := (log.slot_pool.getD i default).slot_start_lsn.offset +
          WT_LOG_SLOT_JOINED (log.slot_pool.getD i default).slot_state } ∧
    (log_slot_close log (some i)).1.alloc_lsn =
      ((log_slot_close log (some i)).1.slot_pool.getD i default).slot_end_lsn ∧
    (log_slot_close log (some i)).2.2 = 0 ∧
    ((log_slot_close log (some i)).2.1 = true ↔
      (WT_LOG_SLOT_CLOSED ((log.slot_pool.getD i default).slot_state |||
          WT_LOG_SLOT_CLOSE) = true ∧
       WT_LOG_SLOT_JOINED ((log.slot_pool.getD i default).slot_state |||
          WT_LOG_SLOT_CLOSE) =
       WT_LOG_SLOT_RELEASED ((log.slot_pool.getD i default).slot_state |||
          WT_LOG_SLOT_CLOSE))) := by
  simp only [log_slot_close]
  rw [if_neg (by rw [hc]; simp), if_neg (by rw [hr]; simp)]
  rw [getD_set_self _ _ _ hi]
  refine ⟨rfl, rfl, rfl, rfl, ?_⟩
  simp [WT_LOG_SLOT_DONE]

/-- Witness for C2: closing the concrete open slot. -/
theorem c2_witness :
    ((log_slot_close exLog (some 0)).1.slot_pool.getD 0 default).slot_state =
      ((exLog.slot_pool.getD 0 default).slot_state ||| WT_LOG_SLOT_CLOSE) ∧
    ((log_slot_close exLog (some 0)).1.slot_pool.getD 0 default).slot_end_lsn =
      { file := (exLog.slot_pool.getD 0 default).slot_start_lsn.file,
        offset := (exLog.slot_pool.getD 0 default).slot_start_lsn.offset +
          WT_LOG_SLOT_JOINED (exLog.slot_pool.getD 0 default).slot_state } ∧
    (log_slot_close exLog (some 0)).1.alloc_lsn =
      ((log_slot_close exLog (some 0)).1.slot_pool.getD 0 default).slot_end_lsn ∧
    (log_slot_close exLog (some 0)).2.2 = 0 ∧
    ((log_slot_close exLog (some 0)).2.1 = true ↔
      (WT_LOG_SLOT_CLOSED ((exLog.slot_pool.getD 0 default).slot_state |||
          WT_LOG_SLOT_CLOSE) = true ∧
       WT_LOG_SLOT_JOINED ((exLog.slot_pool.getD 0 default).slot_state |||
          WT_LOG_SLOT_CLOSE) =
       WT_LOG_SLOT_RELEASED ((exLog.slot_pool.getD 0 default).slot_state |||
          WT_LOG_SLOT_CLOSE))) :=
  c2_close_wins exLog 0 (by decide) (by decide) (by decide)

/-- Claim C9: a winning close CAS writes exactly old OR CLOSE, and that
word has the same JOINED and RELEASED field values as old, so releases
pending at close time are still counted toward DONE. -/
theorem c9_close_frame (log : WT_LOG) (i : Nat)
    (hi : i < log.slot_pool.length)
    (hc : WT_LOG_SLOT_CLOSED (log.slot_pool.getD i default).slot_state = false)
    (hr : FLD64_ISSET (log.slot_pool.getD i default).slot_state
            WT_LOG_SLOT_RESERVED = false) :
    ((log_slot_close log (some i)).1.slot_pool.getD i default).slot_state =
      ((log.slot_pool.getD i default).slot_state ||| WT_LOG_SLOT_CLOSE) ∧
    WT_LOG_SLOT_JOINED ((log.slot_pool.getD i default).slot_state |||
        WT_LOG_SLOT_CLOSE) =
      WT_LOG_SLOT_JOINED (log.slot_pool.getD i default).slot_state ∧
    WT_LOG_SLOT_RELEASED ((log.slot_pool.getD i default).slot_state |||
        WT_LOG_SLOT_CLOSE) =
      WT_LOG_SLOT_RELEASED (log.slot_pool.getD i default).slot_state := by
  refine ⟨?_, joined_lor_close _, released_lor_close _⟩
  simp only [log_slot_close]
  rw [if_neg (by rw [hc]; simp), if_neg (by rw [hr]; simp)]
  rw [getD_set_self _ _ _ hi]

/-- Witness for C9: the winning close on the concrete open slot. -/
theorem c9_witness :
    ((log_slot_close exLog (some 0)).1.slot_pool.getD 0 default).slot_state =
      ((exLog.slot_pool.getD 0 default).slot_state ||| WT_LOG_SLOT_CLOSE) ∧
    WT_LOG_SLOT_JOINED ((exLog.slot_pool.getD 0 default).slot_state |||
        WT_LOG_SLOT_CLOSE) =
      WT_LOG_SLOT_JOINED (exLog.slot_pool.getD 0 default).slot_state ∧
    WT_LOG_SLOT_RELEASED ((exLog.slot_pool.getD 0 default).slot_state |||
        WT_LOG_SLOT_CLOSE) =
      WT_LOG_SLOT_RELEASED (exLog.slot_pool.getD 0 default).slot_state :=
  c9_close_frame exLog 0 (by decide) (by decide) (by decide)

/-- Claim C6: when slot_switch is called on the active slot while the
caller holds an unreleased join (JOINED exceeds RELEASED, state neither
CLOSE nor RESERVED), the inner close reports release_now false and the
diagnostic JOINED-greater-than-RELEASED check still holds afterwards, so
every assertion in slot_switch passes. -/
theorem c6_switch_assert (acquire : WT_LOG → Nat → Int × WT_LOG)
    (log : WT_LOG) (i : Nat)
    (hact : log.active_slot = some i)
    (hi : i < log.slot_pool.length)
    (hc : WT_LOG_SLOT_CLOSED (log.slot_pool.getD i default).slot_state = false)
    (hr : FLD64_ISSET (log.slot_pool.getD i default).slot_state
            WT_LOG_SLOT_RESERVED = false)
    (hjr : WT_LOG_SLOT_RELEASED (log.slot_pool.getD i default).slot_state <
           WT_LOG_SLOT_JOINED (log.slot_pool.getD i default).slot_state) :
    (log_slot_switch acquire log i).1 = true := by
  have hstate : ((log_slot_close log (some i)).1.slot_pool.getD i
      default).slot_state =
      ((log.slot_pool.getD i default).slot_state ||| WT_LOG_SLOT_CLOSE) := by
    simp only [log_slot_close]
    rw [if_neg (by rw [hc]; simp), if_neg (by rw [hr]; simp)]
    rw [getD_set_self _ _ _ hi]
  have hrel : (log_slot_close log (some i)).2.1 = false := by
    simp only [log_slot_close]
    rw [if_neg (by rw [hc]; simp), if_neg (by rw [hr]; simp)]
    show WT_LOG_SLOT_DONE _ = false
    simp only [WT_LOG_SLOT_DONE, Bool.and_eq_false_iff]
    right
    simp only [beq_eq_false_iff_ne, ne_eq, joined_lor_close, released_lor_close]
    omega
  have hok : (!(log_slot_close log (some i)).2.1 &&
      decide (WT_LOG_SLOT_RELEASED
          (((log_slot_close log (some i)).1.slot_pool.getD i default).slot_state) <
        WT_LOG_SLOT_JOINED
          (((log_slot_close log (some i)).1.slot_pool.getD i default).slot_state))) =
      true := by
    rw [hrel, hstate, joined_lor_close, released_lor_close]
    simpa using hjr
  unfold log_slot_switch
  rw [hact, if_neg (by simp)]
  cases hnew : log_slot_new acquire (log_slot_close log (some i)).1 with
  | none =>
    simp only [hnew]
    exact hok
  | some p =>
    obtain ⟨ret, log2⟩ := p
    simp only [hnew]
    exact hok

/-- Witness for C6: a concrete switch on the active slot mid-join. -/
theorem c6_witness :
    (log_slot_switch (fun l _ => (0, l)) exLog 0).1 = true :=
  c6_switch_assert (fun l _ => (0, l)) exLog 0 (by decide) (by decide)
    (by decide) (by decide) (by decide)

lemma applySyncFlags_state (flags : Nat) (s : WT_LOGSLOT) :
    (applySyncFlags flags s).slot_state = s.slot_state := by
  simp only [applySyncFlags]
  split <;> split <;> rfl

lemma applySyncFlags_zero (s : WT_LOGSLOT) : applySyncFlags 0 s = s := by
  have h1 : FLD64_ISSET 0 (WT_LOG_DSYNC ||| WT_LOG_FSYNC) = false := by decide
  have h2 : FLD64_ISSET 0 WT_LOG_FSYNC = false := by decide
  simp [applySyncFlags, h1, h2]

lemma log_slot_join_eq (log : WT_LOG) (i mysize flags : Nat) (m : WT_MYSLOT)
    (hact : log.active_slot = some i)
    (hopen : WT_LOG_SLOT_OPEN (log.slot_pool.getD i default).slot_state = true) :
    log_slot_join log mysize flags m =
      some ({ log with slot_pool := (log.slot_pool.set i
                (applySyncFlags flags
                  { log.slot_pool.getD i default with
                    slot_state := (WT_LOG_SLOT_JOIN_REL
                      (WT_LOG_SLOT_JOINED
                          (log.slot_pool.getD i default).slot_state + mysize)
                      (WT_LOG_SLOT_RELEASED
                          (log.slot_pool.getD i default).slot_state)
                      (WT_LOG_SLOT_FLAGS
                          (log.slot_pool.getD i default).slot_state) % WORD64) })) },
            { slot := i,
              offset := (WT_LOG_SLOT_JOINED
                (log.slot_pool.getD i default).slot_state),
              end_offset := (WT_LOG_SLOT_JOINED
                (log.slot_pool.getD i default).slot_state + mysize) }, 0) := by
  simp only [log_slot_join]
  rw [hact]
  dsimp only
  rw [if_pos hopen]

lemma released_lt (s : Nat) : WT_LOG_SLOT_RELEASED s < 16777216 :=
  Nat.mod_lt _ (by norm_num)

lemma flags_lt (s : Nat) : WT_LOG_SLOT_FLAGS s < 65536 :=
  Nat.mod_lt _ (by norm_num)

lemma join_rel_lt_word (j r f : Nat) (hj : j < 16777216) (hr : r < 16777216)
    (hf : f < 65536) : WT_LOG_SLOT_JOIN_REL j r f < WORD64 := by
  simp only [WT_LOG_SLOT_JOIN_REL, WORD64]
  omega

lemma joined_join_rel (j r f : Nat) (hj : j < 16777216) :
    WT_LOG_SLOT_JOINED (WT_LOG_SLOT_JOIN_REL j r f) = j := by
  simp only [WT_LOG_SLOT_JOINED, WT_LOG_SLOT_JOIN_REL]
  omega

lemma released_join_rel (j r f : Nat) (hj : j < 16777216) (hr : r < 16777216) :
    WT_LOG_SLOT_RELEASED (WT_LOG_SLOT_JOIN_REL j r f) = r := by
  simp only [WT_LOG_SLOT_RELEASED, WT_LOG_SLOT_JOIN_REL]
  omega

lemma flags_join_rel (j r f : Nat) (hj : j < 16777216) (hr : r < 16777216)
    (hf : f < 65536) :
    WT_LOG_SLOT_FLAGS (WT_LOG_SLOT_JOIN_REL j r f) = f := by
  simp only [WT_LOG_SLOT_FLAGS, WT_LOG_SLOT_JOIN_REL]
  omega

lemma join_rel_decompose (s : Nat) (h : s < WORD64) :
    WT_LOG_SLOT_JOIN_REL (WT_LOG_SLOT_JOINED s) (WT_LOG_SLOT_RELEASED s)
      (WT_LOG_SLOT_FLAGS s) = s := by
  simp only [WT_LOG_SLOT_JOIN_REL, WT_LOG_SLOT_JOINED, WT_LOG_SLOT_RELEASED,
    WT_LOG_SLOT_FLAGS, WORD64] at *
  omega

/-- Claim C3: a join on an OPEN active slot replaces the state word with
JOIN_REL(joined + mysize, released, flags) — the RELEASED field and the
flag bits are unchanged — and returns success with the caller handle
referring to the active slot, offset equal to the pre-CAS JOINED value,
and end_offset equal to offset + mysize. -/
theorem c3_join_cas (log : WT_LOG) (i mysize flags : Nat) (m : WT_MYSLOT)
    (hact : log.active_slot = some i)
    (hi : i < log.slot_pool.length)
    (hopen : WT_LOG_SLOT_OPEN (log.slot_pool.getD i default).slot_state = true)
    (hsz : mysize < WT_LOG_SLOT_MAXIMUM)
    (hfit : WT_LOG_SLOT_JOINED (log.slot_pool.getD i default).slot_state +
      mysize < 16777216) :
    (log_slot_join log mysize flags m).isSome = true ∧
    ((joinD log mysize flags m).1.slot_pool.getD i default).slot_state =
      WT_LOG_SLOT_JOIN_REL
        (WT_LOG_SLOT_JOINED (log.slot_pool.getD i default).slot_state + mysize)
        (WT_LOG_SLOT_RELEASED (log.slot_pool.getD i default).slot_state)
        (WT_LOG_SLOT_FLAGS (log.slot_pool.getD i default).slot_state) ∧
    WT_LOG_SLOT_JOINED
        (((joinD log mysize flags m).1.slot_pool.getD i default).slot_state) =
      WT_LOG_SLOT_JOINED (log.slot_pool.getD i default).slot_state + mysize ∧
    WT_LOG_SLOT_RELEASED
        (((joinD log mysize flags m).1.slot_pool.getD i default).slot_state) =
      WT_LOG_SLOT_RELEASED (log.slot_pool.getD i default).slot_state ∧
    WT_LOG_SLOT_FLAGS
        (((joinD log mysize flags m).1.slot_pool.getD i default).slot_state) =
      WT_LOG_SLOT_FLAGS (log.slot_pool.getD i default).slot_state ∧
    (joinD log mysize flags m).2.2 = 0 ∧
    (joinD log mysize flags m).2.1 =
      { slot := i,
        offset := WT_LOG_SLOT_JOINED (log.slot_pool.getD i default).slot_state,
        end_offset :=
          WT_LOG_SLOT_JOINED (log.slot_pool.getD i default).slot_state +
            mysize } := by
  have heq := log_slot_join_eq log i mysize flags m hact hopen
  have hmod : WT_LOG_SLOT_JOIN_REL
      (WT_LOG_SLOT_JOINED (log.slot_pool.getD i default).slot_state + mysize)
      (WT_LOG_SLOT_RELEASED (log.slot_pool.getD i default).slot_state)
      (WT_LOG_SLOT_FLAGS (log.slot_pool.getD i default).slot_state) % WORD64 =
      WT_LOG_SLOT_JOIN_REL
      (WT_LOG_SLOT_JOINED (log.slot_pool.getD i default).slot_state + mysize)
      (WT_LOG_SLOT_RELEASED (log.slot_pool.getD i default).slot_state)
      (WT_LOG_SLOT_FLAGS (log.slot_pool.getD i default).slot_state) :=
    Nat.mod_eq_of_lt (join_rel_lt_word _ _ _ (by omega) (released_lt _)
      (flags_lt _))
  rw [hmod] at heq
  have hstate : ((joinD log mysize flags m).1.slot_pool.getD i
      default).slot_state =
      WT_LOG_SLOT_JOIN_REL
        (WT_LOG_SLOT_JOINED (log.slot_pool.getD i default).slot_state + mysize)
        (WT_LOG_SLOT_RELEASED (log.slot_pool.getD i default).slot_state)
        (WT_LOG_SLOT_FLAGS (log.slot_pool.getD i default).slot_state) := by
    rw [joinD, heq, Option.getD_some]
    rw [getD_set_self _ _ _ hi, applySyncFlags_state]
  refine ⟨by rw [heq]; rfl, hstate, ?_, ?_, ?_, by rw [joinD, heq]; rfl,
    by rw [joinD, heq]; rfl⟩
  · rw [hstate, joined_join_rel _ _ _ hfit]
  · rw [hstate, released_join_rel _ _ _ hfit (released_lt _)]
  · rw [hstate, flags_join_rel _ _ _ hfit (released_lt _) (flags_lt _)]

/-- Witness for C3: a concrete join of ten bytes on the open slot. -/
theorem c3_witness :
    (log_slot_join exLog 10 0 default).isSome = true ∧
    ((joinD exLog 10 0 default).1.slot_pool.getD 0 default).slot_state =
      WT_LOG_SLOT_JOIN_REL
        (WT_LOG_SLOT_JOINED (exLog.slot_pool.getD 0 default).slot_state + 10)
        (WT_LOG_SLOT_RELEASED (exLog.slot_pool.getD 0 default).slot_state)
        (WT_LOG_SLOT_FLAGS (exLog.slot_pool.getD 0 default).slot_state) ∧
    WT_LOG_SLOT_JOINED
        (((joinD exLog 10 0 default).1.slot_pool.getD 0 default).slot_state) =
      WT_LOG_SLOT_JOINED (exLog.slot_pool.getD 0 default).slot_state + 10 ∧
    WT_LOG_SLOT_RELEASED
        (((joinD exLog 10 0 default).1.slot_pool.getD 0 default).slot_state) =
      WT_LOG_SLOT_RELEASED (exLog.slot_pool.getD 0 default).slot_state ∧
    WT_LOG_SLOT_FLAGS
        (((joinD exLog 10 0 default).1.slot_pool.getD 0 default).slot_state) =
      WT_LOG_SLOT_FLAGS (exLog.slot_pool.getD 0 default).slot_state ∧
    (joinD exLog 10 0 default).2.2 = 0 ∧
    (joinD exLog 10 0 default).2.1 =
      { slot := 0,
        offset := WT_LOG_SLOT_JOINED (exLog.slot_pool.getD 0 default).slot_state,
        end_offset :=
          WT_LOG_SLOT_JOINED (exLog.slot_pool.getD 0 default).slot_state + 10 } :=
  c3_join_cas exLog 0 10 0 default (by decide) (by decide) (by decide)
    (by decide) (by decide)

/-- Claim C10: a zero-size join (the background-writer probe) on an OPEN
active slot still goes through the join CAS: it leaves the state word
unchanged, returns success, and fills the handle with offset and
end_offset both equal to the current JOINED value. -/
theorem c10_join_zero (log : WT_LOG) (i flags : Nat) (m : WT_MYSLOT)
    (hact : log.active_slot = some i)
    (hi : i < log.slot_pool.length)
    (hopen : WT_LOG_SLOT_OPEN (log.slot_pool.getD i default).slot_state = true)
    (hwf : (log.slot_pool.getD i default).slot_state < WORD64) :
    (log_slot_join log 0 flags m).isSome = true ∧
    ((joinD log 0 flags m).1.slot_pool.getD i default).slot_state =
      (log.slot_pool.getD i default).slot_state ∧
    (joinD log 0 flags m).2.2 = 0 ∧
    (joinD log 0 flags m).2.1 =
      { slot := i,
        offset := WT_LOG_SLOT_JOINED (log.slot_pool.getD i default).slot_state,
        end_offset :=
          WT_LOG_SLOT_JOINED (log.slot_pool.getD i default).slot_state } := by
  have heq := log_slot_join_eq log i 0 flags m hact hopen
  have hdec : WT_LOG_SLOT_JOIN_REL
      (WT_LOG_SLOT_JOINED (log.slot_pool.getD i default).slot_state + 0)
      (WT_LOG_SLOT_RELEASED (log.slot_pool.getD i default).slot_state)
      (WT_LOG_SLOT_FLAGS (log.slot_pool.getD i default).slot_state) % WORD64 =
      (log.slot_pool.getD i default).slot_state := by
    rw [Nat.add_zero, join_rel_decompose _ hwf, Nat.mod_eq_of_lt hwf]
  rw [hdec] at heq
  refine ⟨by rw [heq]; rfl, ?_, by rw [joinD, heq]; rfl, ?_⟩
  · rw [joinD, heq, Option.getD_some]
    rw [getD_set_self _ _ _ hi, applySyncFlags_state]
  · rw [joinD, heq, Option.getD_some]
    simp

/-- Witness for C10: the concrete zero-size probe join. -/
theorem c10_witness :
    (log_slot_join exLog 0 0 default).isSome = true ∧
    ((joinD exLog 0 0 default).1.slot_pool.getD 0 default).slot_state =
      (exLog.slot_pool.getD 0 default).slot_state ∧
    (joinD exLog 0 0 default).2.2 = 0 ∧
    (joinD exLog 0 0 default).2.1 =
      { slot := 0,
        offset := WT_LOG_SLOT_JOINED (exLog.slot_pool.getD 0 default).slot_state,
        end_offset :=
          WT_LOG_SLOT_JOINED (exLog.slot_pool.getD 0 default).slot_state } :=
  c10_join_zero exLog 0 0 default (by decide) (by decide) (by decide)
    (by decide)

lemma sum_take_mono (xs : List Nat) : ∀ a b : Nat, a ≤ b →
    (xs.take a).sum ≤ (xs.take b).sum := by
  induction xs with
  | nil => intro a b h; simp
  | cons x xs ih =>
    intro a b h
    cases a with
    | zero => simp
    | succ a1 =>
      cases b with
      | zero => omega
      | succ b1 =>
        simp only [List.take_succ_cons, List.sum_cons]
        exact Nat.add_le_add_left (ih a1 b1 (by omega)) x

lemma joinList_spec (sizes : List Nat) : ∀ (log : WT_LOG) (i j r : Nat),
    log.active_slot = some i → i < log.slot_pool.length →
    (log.slot_pool.getD i default).slot_state = WT_LOG_SLOT_JOIN_REL j r 0 →
    j + sizes.sum < 16777216 → r < 16777216 →
    ∃ log1 ms, joinList log sizes = some (log1, ms) ∧
      ms.length = sizes.length ∧
      log1.active_slot = some i ∧
      log1.slot_pool.length = log.slot_pool.length ∧
      (log1.slot_pool.getD i default).slot_state =
        WT_LOG_SLOT_JOIN_REL (j + sizes.sum) r 0 ∧
      (∀ k, k < ms.length →
        (ms.getD k default).offset = j + (sizes.take k).sum ∧
        (ms.getD k default).end_offset = j + (sizes.take (k+1)).sum) := by
  induction sizes with
  | nil =>
    intro log i j r hact hi hstate hfit hr
    refine ⟨log, [], rfl, rfl, hact, rfl, by simpa using hstate, ?_⟩
    intro k hk
    simp at hk
  | cons sz rest ih =>
    intro log i j r hact hi hstate hfit hr
    rw [List.sum_cons] at hfit
    have hj24 : j < 16777216 := by omega
    have hjs24 : j + sz < 16777216 := by omega
    have hJ : WT_LOG_SLOT_JOINED (log.slot_pool.getD i default).slot_state
        = j := by
      rw [hstate]; exact joined_join_rel _ _ _ hj24
    have hR : WT_LOG_SLOT_RELEASED (log.slot_pool.getD i default).slot_state
        = r := by
      rw [hstate]; exact released_join_rel _ _ _ hj24 hr
    have hF : WT_LOG_SLOT_FLAGS (log.slot_pool.getD i default).slot_state
        = 0 := by
      rw [hstate]; exact flags_join_rel _ _ _ hj24 hr (by norm_num)
    have hopen : WT_LOG_SLOT_OPEN
        (log.slot_pool.getD i default).slot_state = true := by
      simp only [WT_LOG_SLOT_OPEN, hF]
      rfl
    have heq := log_slot_join_eq log i sz 0 default hact hopen
    rw [hJ, hR, hF] at heq
    rw [Nat.mod_eq_of_lt (join_rel_lt_word _ _ _ hjs24 hr (by norm_num))] at heq
    rw [applySyncFlags_zero] at heq
    have hfit1 : j + sz + rest.sum < 16777216 := by omega
    obtain ⟨log2, ms1, hjl, hlen, hact2, hplen, hstate2, hidx⟩ :=
      ih ({ log with slot_pool := (log.slot_pool.set i
            { log.slot_pool.getD i default with
              slot_state := WT_LOG_SLOT_JOIN_REL (j + sz) r 0 }) }) i (j + sz) r
        hact (by simpa using hi)
        (by dsimp only; rw [getD_set_self _ _ _ hi])
        hfit1 hr
    refine ⟨log2, ⟨i, j, j + sz⟩ :: ms1, ?_, by simpa using hlen, hact2,
      by simpa using hplen, ?_, ?_⟩
    · simp only [joinList]
      rw [heq]
      dsimp only
      rw [hjl]
    · rw [List.sum_cons, ← Nat.add_assoc]
      exact hstate2
    · intro k hk
      cases k with
      | zero =>
        constructor
        · simp
        · simp [List.take_succ_cons]
      | succ k1 =>
        have hk1 : k1 < ms1.length := by simpa using hk
        obtain ⟨ho, he⟩ := hidx k1 hk1
        constructor
        · simp only [List.getD_cons_succ, List.take_succ_cons, List.sum_cons]
          omega
        · simp only [List.getD_cons_succ, List.take_succ_cons, List.sum_cons]
          omega

/-- Claim C1: for a sequence of successful joins on a slot between its
activation (state word zero) and its close, each call small enough and
the running total representable in the JOINED field, the returned
spans [offset, end_offset) are the consecutive running-sum intervals:
pairwise disjoint, abutting in CAS-success order, and covering exactly
[0, JOINED(final state)). -/
theorem c1_join_partition (log : WT_LOG) (i : Nat) (sizes : List Nat)
    (hact : log.active_slot = some i)
    (hi : i < log.slot_pool.length)
    (hstate : (log.slot_pool.getD i default).slot_state = 0)
    (hmax : ∀ sz ∈ sizes, sz < WT_LOG_SLOT_MAXIMUM)
    (hfit : sizes.sum < 16777216) :
    ∃ log1 ms, joinList log sizes = some (log1, ms) ∧
      ms.length = sizes.length ∧
      (∀ k, k < ms.length →
        (ms.getD k default).offset = (sizes.take k).sum ∧
        (ms.getD k default).end_offset = (sizes.take (k+1)).sum) ∧
      WT_LOG_SLOT_JOINED ((log1.slot_pool.getD i default).slot_state) =
        sizes.sum ∧
      (∀ k l, k < l → l < ms.length →
        (ms.getD k default).end_offset ≤ (ms.getD l default).offset) ∧
      (∀ k, k + 1 < ms.length →
        (ms.getD k default).end_offset = (ms.getD (k+1) default).offset) ∧
      (0 < ms.length →
        (ms.getD 0 default).offset = 0 ∧
        (ms.getD (ms.length - 1) default).end_offset =
          WT_LOG_SLOT_JOINED ((log1.slot_pool.getD i default).slot_state)) := by
  obtain ⟨log1, ms, hjl, hlen, hact1, hplen, hstate1, hidx⟩ :=
    joinList_spec sizes log i 0 0 hact hi
      (by rw [hstate]; simp [WT_LOG_SLOT_JOIN_REL]) (by omega) (by norm_num)
  have hidx0 : ∀ k, k < ms.length →
      (ms.getD k default).offset = (sizes.take k).sum ∧
      (ms.getD k default).end_offset = (sizes.take (k+1)).sum := by
    intro k hk
    obtain ⟨ho, he⟩ := hidx k hk
    omega
  have hjoined : WT_LOG_SLOT_JOINED
      ((log1.slot_pool.getD i default).slot_state) = sizes.sum := by
    rw [hstate1, Nat.zero_add]
    exact joined_join_rel _ _ _ hfit
  refine ⟨log1, ms, hjl, hlen, hidx0, hjoined, ?_, ?_, ?_⟩
  · intro k l hkl hl
    rw [(hidx0 k (by omega)).2, (hidx0 l hl).1]
    exact sum_take_mono sizes (k+1) l hkl
  · intro k hk
    rw [(hidx0 k (by omega)).2, (hidx0 (k+1) hk).1]
  · intro hpos
    constructor
    · rw [(hidx0 0 hpos).1]
      simp
    · rw [(hidx0 (ms.length - 1) (by omega)).2, hjoined]
      have hms : ms.length - 1 + 1 = ms.length := by omega
      rw [hms, hlen, List.take_length]

/-- Witness for C1: two concrete joins of sizes three and four on the
freshly activated slot. -/
theorem c1_witness :
    ∃ log1 ms, joinList exLogA [3, 4] = some (log1, ms) ∧
      ms.length = [3, 4].length ∧
      (∀ k, k < ms.length →
        (ms.getD k default).offset = ([3, 4].take k).sum ∧
        (ms.getD k default).end_offset = ([3, 4].take (k+1)).sum) ∧
      WT_LOG_SLOT_JOINED ((log1.slot_pool.getD 0 default).slot_state) =
        [3, 4].sum ∧
      (∀ k l, k < l → l < ms.length →
        (ms.getD k default).end_offset ≤ (ms.getD l default).offset) ∧
      (∀ k, k + 1 < ms.length →
        (ms.getD k default).end_offset = (ms.getD (k+1) default).offset) ∧
      (0 < ms.length →
        (ms.getD 0 default).offset = 0 ∧
        (ms.getD (ms.length - 1) default).end_offset =
          WT_LOG_SLOT_JOINED ((log1.slot_pool.getD 0 default).slot_state)) :=
  c1_join_partition exLogA 0 [3, 4] (by decide) (by decide) (by decide)
    (by decide) (by decide)

lemma joined_add_rel (s size : Nat) :
    WT_LOG_SLOT_JOINED (s + WT_LOG_SLOT_JOIN_REL 0 size 0) =
    WT_LOG_SLOT_JOINED s := by
  simp only [WT_LOG_SLOT_JOINED, WT_LOG_SLOT_JOIN_REL]
  omega

lemma released_add_rel (s size : Nat)
    (hfit : WT_LOG_SLOT_RELEASED s + size < 16777216) :
    WT_LOG_SLOT_RELEASED (s + WT_LOG_SLOT_JOIN_REL 0 size 0) =
    WT_LOG_SLOT_RELEASED s + size := by
  simp only [WT_LOG_SLOT_RELEASED, WT_LOG_SLOT_JOIN_REL] at *
  omega

lemma flags_add_rel (s size : Nat)
    (hfit : WT_LOG_SLOT_RELEASED s + size < 16777216) :
    WT_LOG_SLOT_FLAGS (s + WT_LOG_SLOT_JOIN_REL 0 size 0) =
    WT_LOG_SLOT_FLAGS s := by
  simp only [WT_LOG_SLOT_RELEASED, WT_LOG_SLOT_FLAGS,
    WT_LOG_SLOT_JOIN_REL] at *
  omega

/-- Claim C4: after slot_release the slot's last_offset is the maximum
of its previous value and start_offset + myslot.offset (so it never
decreases), and the returned state word is the previous state plus size
added into the RELEASED bitfield, leaving the JOINED field and the flag
bits unchanged when RELEASED + size still fits its field. -/
theorem c4_release (log : WT_LOG) (myslot : WT_MYSLOT) (size : Nat)
    (hi : myslot.slot < log.slot_pool.length)
    (hwf : (log.slot_pool.getD myslot.slot default).slot_state < WORD64)
    (hfit : WT_LOG_SLOT_RELEASED
        (log.slot_pool.getD myslot.slot default).slot_state + size <
        16777216) :
    ((log_slot_release log myslot size).1.slot_pool.getD myslot.slot
        default).slot_last_offset =
      max (log.slot_pool.getD myslot.slot default).slot_last_offset
        ((log.slot_pool.getD myslot.slot default).slot_start_offset +
          myslot.offset) ∧
    (log.slot_pool.getD myslot.slot default).slot_last_offset ≤
      ((log_slot_release log myslot size).1.slot_pool.getD myslot.slot
        default).slot_last_offset ∧
    (log_slot_release log myslot size).2 =
      (log.slot_pool.getD myslot.slot default).slot_state +
        WT_LOG_SLOT_JOIN_REL 0 size 0 ∧
    ((log_slot_release log myslot size).1.slot_pool.getD myslot.slot
        default).slot_state = (log_slot_release log myslot size).2 ∧
    WT_LOG_SLOT_JOINED (log_slot_release log myslot size).2 =
      WT_LOG_SLOT_JOINED
        (log.slot_pool.getD myslot.slot default).slot_state ∧
    WT_LOG_SLOT_RELEASED (log_slot_release log myslot size).2 =
      WT_LOG_SLOT_RELEASED
        (log.slot_pool.getD myslot.slot default).slot_state + size ∧
    WT_LOG_SLOT_FLAGS (log_slot_release log myslot size).2 =
      WT_LOG_SLOT_FLAGS
        (log.slot_pool.getD myslot.slot default).slot_state := by
  have hlt : (log.slot_pool.getD myslot.slot default).slot_state +
      WT_LOG_SLOT_JOIN_REL 0 size 0 < WORD64 := by
    simp only [WT_LOG_SLOT_RELEASED, WT_LOG_SLOT_JOIN_REL, WORD64] at *
    omega
  by_cases hlast :
      (log.slot_pool.getD myslot.slot default).slot_last_offset <
      (log.slot_pool.getD myslot.slot default).slot_start_offset +
        myslot.offset
  · simp only [log_slot_release]
    rw [if_pos hlast]
    dsimp only
    rw [Nat.mod_eq_of_lt hlt]
    rw [getD_set_self _ _ _ hi]
    refine ⟨?_, ?_, rfl, rfl, joined_add_rel _ _, released_add_rel _ _ hfit,
      flags_add_rel _ _ hfit⟩
    · rw [Nat.max_eq_right (Nat.le_of_lt hlast)]
    · exact Nat.le_of_lt hlast
  · simp only [log_slot_release]
    rw [if_neg hlast]
    rw [Nat.mod_eq_of_lt hlt]
    rw [getD_set_self _ _ _ hi]
    refine ⟨?_, ?_, rfl, rfl, joined_add_rel _ _, released_add_rel _ _ hfit,
      flags_add_rel _ _ hfit⟩
    · rw [Nat.max_eq_left (by omega)]
    · exact Nat.le_refl _

/-- Witness for C4: a concrete release of three bytes. -/
theorem c4_witness :
    ((log_slot_release exLog ⟨0, 5, 8⟩ 3).1.slot_pool.getD 0
        default).slot_last_offset =
      max (exLog.slot_pool.getD 0 default).slot_last_offset
        ((exLog.slot_pool.getD 0 default).slot_start_offset + 5) ∧
    (exLog.slot_pool.getD 0 default).slot_last_offset ≤
      ((log_slot_release exLog ⟨0, 5, 8⟩ 3).1.slot_pool.getD 0
        default).slot_last_offset ∧
    (log_slot_release exLog ⟨0, 5, 8⟩ 3).2 =
      (exLog.slot_pool.getD 0 default).slot_state +
        WT_LOG_SLOT_JOIN_REL 0 3 0 ∧
    ((log_slot_release exLog ⟨0, 5, 8⟩ 3).1.slot_pool.getD 0
        default).slot_state = (log_slot_release exLog ⟨0, 5, 8⟩ 3).2 ∧
    WT_LOG_SLOT_JOINED (log_slot_release exLog ⟨0, 5, 8⟩ 3).2 =
      WT_LOG_SLOT_JOINED (exLog.slot_pool.getD 0 default).slot_state ∧
    WT_LOG_SLOT_RELEASED (log_slot_release exLog ⟨0, 5, 8⟩ 3).2 =
      WT_LOG_SLOT_RELEASED (exLog.slot_pool.getD 0 default).slot_state + 3 ∧
    WT_LOG_SLOT_FLAGS (log_slot_release exLog ⟨0, 5, 8⟩ 3).2 =
      WT_LOG_SLOT_FLAGS (exLog.slot_pool.getD 0 default).slot_state :=
  c4_release exLog ⟨0, 5, 8⟩ 3 (by decide) (by decide) (by decide)

lemma findFreeIdx_spec : ∀ (l : List WT_LOGSLOT) (i : Nat),
    findFreeIdx l = some i →
    i < l.length ∧ (l.getD i default).slot_state = WT_LOG_SLOT_FREE := by
  intro l
  induction l with
  | nil =>
    intro i h
    simp [findFreeIdx] at h
  | cons s rest ih =>
    intro i h
    simp only [findFreeIdx] at h
    by_cases hs : (s.slot_state == WT_LOG_SLOT_FREE) = true
    · rw [if_pos hs] at h
      injection h with h0
      subst h0
      exact ⟨by simp, by simpa using hs⟩
    · rw [if_neg hs] at h
      obtain ⟨i1, hi1, rfl⟩ := Option.map_eq_some'.1 h
      obtain ⟨h1, h2⟩ := ih i1 hi1
      exact ⟨by simpa using h1, by simpa using h2⟩

/-- Claim C8: if the acquire collaborator fails while slot_new promotes
a FREE slot found by the pool scan, slot_new returns that error, the
active slot pointer is unchanged, and slot_new has not written the
faulting slot's state word, which still reads FREE. (Modelled from the
spec: acquire updates only alloc_lsn and the slot's boundary LSNs, so
the hypotheses record that it preserves active_slot and the state
word.) -/
theorem c8_new_acquire_error (acquire : WT_LOG → Nat → Int × WT_LOG)
    (log log2 : WT_LOG) (i : Nat) (e : Int)
    (hfc : log.force_consolidate = true)
    (hactive : (match log.active_slot with
       | some a => WT_LOG_SLOT_OPEN (log.slot_pool.getD a default).slot_state
       | none => false) = false)
    (hfind : findFreeIdx log.slot_pool = some i)
    (hacq : acquire log i = (e, log2))
    (he : e ≠ 0)
    (hpa : log2.active_slot = log.active_slot)
    (hps : (log2.slot_pool.getD i default).slot_state =
           (log.slot_pool.getD i default).slot_state) :
    log_slot_new acquire log = some (e, log2) ∧
    log2.active_slot = log.active_slot ∧
    (log2.slot_pool.getD i default).slot_state = WT_LOG_SLOT_FREE := by
  have hfree := (findFreeIdx_spec log.slot_pool i hfind).2
  refine ⟨?_, hpa, by rw [hps, hfree]⟩
  simp only [log_slot_new]
  rw [if_neg (by rw [hfc]; simp)]
  rw [if_neg (by rw [hactive]; simp)]
  rw [hfind]
  dsimp only
  rw [hacq]
  dsimp only
  rw [if_pos (by simpa using he)]

/-- Witness for C8: a concrete failing acquire on a FREE slot. -/
theorem c8_witness :
    log_slot_new (fun l _ => (-1, l)) exLog8 = some (-1, exLog8) ∧
    exLog8.active_slot = exLog8.active_slot ∧
    (exLog8.slot_pool.getD 0 default).slot_state = WT_LOG_SLOT_FREE :=
  c8_new_acquire_error (fun l _ => (-1, l)) exLog8 exLog8 0 (-1)
    (by decide) (by decide) (by decide) rfl (by decide) rfl rfl

lemma destroyGo_append_err (w : Nat → Nat → Nat → Int) (s : WT_LOGSLOT)
    (post : List WT_LOGSLOT)
    (hres : FLD64_ISSET s.slot_state WT_LOG_SLOT_RESERVED = false)
    (hws : WT_LOG_SLOT_RELEASED s.slot_state - s.slot_unbuffered ≠ 0)
    (herr : w s.slot_fh s.slot_start_offset
      (WT_LOG_SLOT_RELEASED s.slot_state - s.slot_unbuffered) ≠ 0) :
    ∀ pre : List WT_LOGSLOT, (destroyGo w pre).1 = 0 →
    destroyGo w (pre ++ s :: post) =
      (w s.slot_fh s.slot_start_offset
        (WT_LOG_SLOT_RELEASED s.slot_state - s.slot_unbuffered),
       (destroyGo w pre).2.1, (destroyGo w pre).2.2) := by
  intro pre
  induction pre with
  | nil =>
    intro _
    simp only [List.nil_append, destroyGo]
    rw [if_pos hres, if_pos (by simpa using hws), if_pos (by simpa using herr)]
  | cons p pre1 ih =>
    intro hpre
    by_cases h1 : FLD64_ISSET p.slot_state WT_LOG_SLOT_RESERVED = false
    · by_cases h2 : (WT_LOG_SLOT_RELEASED p.slot_state -
          p.slot_unbuffered != 0) = true
      · by_cases h3 : (w p.slot_fh p.slot_start_offset
            (WT_LOG_SLOT_RELEASED p.slot_state - p.slot_unbuffered) != 0) =
            true
        · exfalso
          have hstep : destroyGo w (p :: pre1) =
              (w p.slot_fh p.slot_start_offset
                (WT_LOG_SLOT_RELEASED p.slot_state - p.slot_unbuffered),
               [], 0) := by
            simp only [destroyGo]
            rw [if_pos h1, if_pos h2, if_pos h3]
          rw [hstep] at hpre
          exact absurd hpre (by simpa using h3)
        · have hstep : ∀ l, destroyGo w (p :: l) =
              ((destroyGo w l).1,
               (p.slot_fh, p.slot_start_offset,
                 WT_LOG_SLOT_RELEASED p.slot_state - p.slot_unbuffered) ::
                 (destroyGo w l).2.1,
               (destroyGo w l).2.2 + 1) := by
            intro l
            simp only [destroyGo]
            rw [if_pos h1, if_pos h2, if_neg h3]
          rw [hstep] at hpre
          have hpre1 : (destroyGo w pre1).1 = 0 := hpre
          rw [List.cons_append, hstep, hstep, ih hpre1]
      · have hstep : ∀ l, destroyGo w (p :: l) =
            ((destroyGo w l).1, (destroyGo w l).2.1,
             (destroyGo w l).2.2 + 1) := by
          intro l
          simp only [destroyGo]
          rw [if_pos h1, if_neg h2]
        rw [hstep] at hpre
        have hpre1 : (destroyGo w pre1).1 = 0 := hpre
        rw [List.cons_append, hstep, hstep, ih hpre1]
    · have hstep : ∀ l, destroyGo w (p :: l) =
          ((destroyGo w l).1, (destroyGo w l).2.1,
           (destroyGo w l).2.2 + 1) := by
        intro l
        simp only [destroyGo]
        rw [if_neg h1]
      rw [hstep] at hpre
      have hpre1 : (destroyGo w pre1).1 = 0 := hpre
      rw [List.cons_append, hstep, hstep, ih hpre1]

/-- Claim C7 (amended): if writing a slot's residual bytes fails during
slot_destroy, the error is returned immediately: the writes performed
are exactly those of the slots before the faulting one, and exactly the
buffers of the slots before the faulting one have been freed — the
faulting slot's buffer and all later slots are neither drained nor
freed. -/
theorem c7_destroy_error (w : Nat → Nat → Nat → Int) (log : WT_LOG)
    (pre post : List WT_LOGSLOT) (s : WT_LOGSLOT) (e : Int)
    (hpool : log.slot_pool = pre ++ s :: post)
    (hpre : (destroyGo w pre).1 = 0)
    (hres : FLD64_ISSET s.slot_state WT_LOG_SLOT_RESERVED = false)
    (hws : WT_LOG_SLOT_RELEASED s.slot_state - s.slot_unbuffered ≠ 0)
    (herr : w s.slot_fh s.slot_start_offset
        (WT_LOG_SLOT_RELEASED s.slot_state - s.slot_unbuffered) = e)
    (he : e ≠ 0) :
    log_slot_destroy w log =
      (e, (destroyGo w pre).2.1, (destroyGo w pre).2.2) := by
  rw [log_slot_destroy, hpool,
    destroyGo_append_err w s post hres hws (by rw [herr]; exact he) pre hpre,
    herr]

/-- Witness for C7 (amended): the failing write on the first of two
concrete slots returns the error with nothing written or freed. -/
theorem c7_witness :
    log_slot_destroy wFail exLog7 =
      (-1, (destroyGo wFail []).2.1, (destroyGo wFail []).2.2) :=
  c7_destroy_error wFail exLog7 [] [exSlotRel] exSlotRel (-1)
    rfl (by decide) (by decide) (by decide) (by decide) (by decide)

/-- Counterexample for C7 as stated: with two concrete slots awaiting
drain and a failing write collaborator, slot_destroy returns the error,
but no write is issued for the remaining slot and none of the two slot
buffers is freed — refuting that remaining slots are still drained and
every slot's buffer is freed. -/
theorem c7_counterexample :
    (log_slot_destroy wFail exLog7).1 = -1 ∧
    (log_slot_destroy wFail exLog7).2.1 = [] ∧
    exLog7.slot_pool.length = 2 ∧
    (log_slot_destroy wFail exLog7).2.2 = 0 := by decide

end LogSlot
